import Mathlib

/-!
# Verification of the MediaVault media ingestion/optimization pipeline

A shallow embedding of the pipeline implemented in
`src/controllers/*.ts`, `src/middleware/upload.middleware.ts`,
`src/utils/index.ts` and `src/models/Media.ts`, together with proofs and
refutations of the specification's claims about it.

Modelling conventions:
* JavaScript `String.prototype.startsWith/endsWith/includes` are embedded as
  character-list prefix/suffix/infix tests (`jsStartsWith`, `jsEndsWith`,
  `jsIncludes`).
* Filesystem paths are lists of path segments (`path.join` of clean,
  separator-free segments appends segments); the filesystem is an association
  list mapping a path to the byte size of the file stored there.  Directories
  (and the idempotent `ensureUserDirExists`) are not modelled: only file
  artifacts matter to the claims.
* MongoDB document ids and `uuidv4()` values are the two constructors of an
  `Id` type: a Mongo `ObjectId` is a 24-character hex string while a v4 UUID
  is a 36-character hyphenated string, so the two generators can never produce
  equal identifiers; `Media.findByIdAndUpdate` applied to a UUID string fails
  to cast it to an `ObjectId` (the rejection is caught and logged by the
  callers, leaving the store untouched).
* `sharp`/`ffmpeg` encoder outcomes are not determined by the code, so each
  synchronous encode takes an environment value `Option Nat`: `some n` means
  the encode succeeded writing an `n`-byte file, `none` means it failed
  (`EncodingError`/`StorageError`).  Detached `ffmpeg` jobs are returned as
  `BgJob` values; their `end`/`error` callbacks are separate state-transition
  functions applied when the background job finishes.
* Each controller returns the poststate, the launched background jobs and
  `Except ApiErr Response`; the embedded `Response` carries the HTTP status
  and the full record view, of which each endpoint serializes a subset.
* The record store logs a snapshot of the record list after every record
  *update* call (`media.save()` / `Media.findByIdAndUpdate`) in `St.log`,
  making the sequence of persisted states observable.
-/

/-- JS `s.startsWith(p)`: the characters of `p` are a prefix of those of `s`. -/
def jsStartsWith (s p : String) : Bool :=
  p.data.isPrefixOf s.data

/-- JS `s.endsWith(p)`: the characters of `p` are a suffix of those of `s`. -/
def jsEndsWith (s p : String) : Bool :=
  p.data.isSuffixOf s.data

/-- Is `p` an infix of the character list (some suffix has `p` as prefix)? -/
def charsInfix (p : List Char) : List Char → Bool
  | [] => p.isEmpty
  | c :: cs => p.isPrefixOf (c :: cs) || charsInfix p cs

/-- JS `s.includes(p)`: the characters of `p` are an infix of those of `s`. -/
def jsIncludes (s p : String) : Bool :=
  charsInfix p.data s.data

/-- `src/utils/index.ts`: `isImage` — MIME type starts with `image/`. -/
def isImage (fileType : String) : Bool :=
  jsStartsWith fileType "image/"

/-- `src/utils/index.ts`: `isVideo` — MIME type starts with `video/`. -/
def isVideo (fileType : String) : Bool :=
  jsStartsWith fileType "video/"

/-- The three media categories distinguished by the pipeline. -/
inductive MediaCategory where
  | image
  | video
  | document
deriving DecidableEq, Repr

/-- The derivative-processing dispatch used by `uploadMedia`, `optimizeMedia`
and `deleteMedia`: `if (isImage(t)) … else if (isVideo(t)) … else …`. -/
def classify (fileType : String) : MediaCategory :=
  if isImage fileType then .image
  else if isVideo fileType then .video
  else .document

/-- The storage-category directory name chosen in `uploadMedia`
(`src/controllers` ternary): prefixes `image`/`video` *without* the
trailing slash. -/
def mediaTypeDir (mimetype : String) : String :=
  if jsStartsWith mimetype "image" then "images"
  else if jsStartsWith mimetype "video" then "videos"
  else "documents"

/-- The category directory the processing branch of `uploadMedia` works in. -/
def categoryDir : MediaCategory → String
  | .image => "images"
  | .video => "videos"
  | .document => "documents"

/-- `src/middleware/upload.middleware.ts`: the multer `fileFilter` allowlist
for the authenticated upload route. -/
def allowedMimeTypes : List String :=
  ["image/jpeg", "image/jpg", "image/png", "image/gif", "image/webp", "image/svg+xml",
   "video/mp4", "video/mpeg", "video/webm", "video/mov", "video/quicktime",
   "application/pdf",
   "application/msword",
   "application/vnd.openxmlformats-officedocument.wordprocessingml.document",
   "application/vnd.ms-excel",
   "application/vnd.openxmlformats-officedocument.spreadsheetml.sheet",
   "text/plain",
   "text/csv"]

/-- `upload.middleware.ts` `fileFilter`: accept exactly the allowlisted types. -/
def fileFilterAccepts (mimetype : String) : Bool :=
  allowedMimeTypes.contains mimetype

/-- `src/routes/external` multer `fileFilter`: accept images and videos. -/
def externalFilterAccepts (mimetype : String) : Bool :=
  jsStartsWith mimetype "image/" || jsStartsWith mimetype "video/"

/-- A filesystem path as the list of its segments; `path.join` of clean
(separator-free) segments appends segments. -/
abbrev FsPath := List String

/-- `BASE_UPLOAD_PATH = process.env.UPLOAD_PATH || './uploads'` (default). -/
def BASE_UPLOAD_PATH : String := "./uploads"

/-- `upload.middleware.ts` `getUserFilePath`:
`path.join(BASE_UPLOAD_PATH, userId, mediaType, filename)`. -/
def getUserFilePath (userId mediaType filename : String) : FsPath :=
  [BASE_UPLOAD_PATH, userId, mediaType, filename]

/-- `upload.middleware.ts` `getThumbnailPath`:
`path.join(BASE_UPLOAD_PATH, userId, 'thumbnails', filename)`. -/
def getThumbnailPath (userId filename : String) : FsPath :=
  [BASE_UPLOAD_PATH, userId, "thumbnails", filename]

/-- `upload.middleware.ts` `getOptimizedPath`:
`path.join(BASE_UPLOAD_PATH, userId, mediaType, 'optimized', filename)`. -/
def getOptimizedPath (userId mediaType filename : String) : FsPath :=
  [BASE_UPLOAD_PATH, userId, mediaType, "optimized", filename]

/-- A record-store identifier.  `Media.create` persists documents under a
Mongo `ObjectId` (a 24-character hex string); `uuidv4()` produces a
36-character hyphenated string.  The two formats are disjoint, which the two
constructors capture. -/
inductive DbId where
  | oid (n : Nat)
  | uuid (n : Nat)
deriving DecidableEq, Repr

/-- The persisted media document (`src/models/Media.ts`). -/
structure MediaRecord where
  id : DbId
  fileName : String
  originalFileName : String
  fileType : String
  fileSize : Nat
  fileUrl : String
  thumbnailUrl : Option String
  optimizedFileUrl : Option String
  userId : String
  isOptimized : Bool
deriving DecidableEq, Repr

/-- The public response shape serialized for a record. -/
structure MediaView where
  id : DbId
  fileName : String
  originalFileName : String
  fileType : String
  fileSize : Nat
  fileUrl : String
  thumbnailUrl : Option String
  optimizedFileUrl : Option String
  isOptimized : Bool
deriving DecidableEq, Repr

/-- Serialize a record into its public view. -/
def mediaView (r : MediaRecord) : MediaView :=
  { id := r.id, fileName := r.fileName, originalFileName := r.originalFileName,
    fileType := r.fileType, fileSize := r.fileSize, fileUrl := r.fileUrl,
    thumbnailUrl := r.thumbnailUrl, optimizedFileUrl := r.optimizedFileUrl,
    isOptimized := r.isOptimized }

/-- `ApiError(message, statusCode)` from `error.middleware`. -/
structure ApiErr where
  message : String
  statusCode : Nat
deriving DecidableEq, Repr

/-- A successful JSON response: HTTP status plus the serialized record (the
endpoints serialize various subsets of this view). -/
structure Response where
  status : Nat
  media : Option MediaView
deriving DecidableEq, Repr

/-- The artifact filesystem: an association list from path to file byte size. -/
abbrev Fs := List (FsPath × Nat)

/-- `fs.statSync(p).size`, as an `Option`. -/
def fsLookup (fs : Fs) (p : FsPath) : Option Nat :=
  (fs.find? (fun e => e.1 == p)).map (fun e => e.2)

/-- `fs.existsSync(p)`. -/
def fsExists (fs : Fs) (p : FsPath) : Bool :=
  (fsLookup fs p).isSome

/-- `fs.unlinkSync(p)` (no-op when the file is absent, matching the
`existsSync`-guarded unlinks in the source). -/
def fsErase (fs : Fs) (p : FsPath) : Fs :=
  fs.filter (fun e => !(e.1 == p))

/-- Write an `n`-byte file at `p` (e.g. `sharp(..).toFile(p)`). -/
def fsWrite (fs : Fs) (p : FsPath) (n : Nat) : Fs :=
  (p, n) :: fsErase fs p

/-- Split a character list on a separator character. -/
def splitOnChar (sep : Char) : List Char → List (List Char)
  | [] => [[]]
  | c :: cs =>
    if c = sep then [] :: splitOnChar sep cs
    else
      match splitOnChar sep cs with
      | [] => [[c]]
      | h :: t => (c :: h) :: t

/-- Join character lists with a separator character. -/
def intercalateChar (sep : Char) : List (List Char) → List Char
  | [] => []
  | [x] => x
  | x :: xs => x ++ sep :: intercalateChar sep xs

/-- Node `path.parse(f).name`: the file name without its last extension; a
lone leading dot (`.bashrc`) marks no extension. -/
def parseName (f : String) : String :=
  match splitOnChar '.' f.data with
  | [] => f
  | [_] => f
  | [[], _] => f
  | ps => String.mk (intercalateChar '.' ps.dropLast)

/-- Node `path.basename` applied to a `/`-separated URL/path string. -/
def urlBasename (s : String) : String :=
  String.mk ((splitOnChar '/' s.data).getLastD [])

/-- The `isImage(t) ? 'images' : isVideo(t) ? 'videos' : 'documents'` ternary
repeated by `optimizeMedia` and `deleteMedia`. -/
def mediaTypeOf (fileType : String) : String :=
  if isImage fileType then "images"
  else if isVideo fileType then "videos" else "documents"

/-- `Media.findOne({ _id: mid, userId: u })`. -/
def findOne (store : List MediaRecord) (mid : DbId) (u : String) : Option MediaRecord :=
  store.find? (fun r => r.id == mid && r.userId == u)

/-- `media.save()`: persist the (possibly modified) document over the stored
document with the same id. -/
def saveRecord : List MediaRecord → MediaRecord → List MediaRecord
  | [], _ => []
  | x :: xs, r => if x.id == r.id then r :: xs else x :: saveRecord xs r

/-- Whole-system state: artifact filesystem, record store, the id counters of
the two identifier generators, and the audit log of record lists persisted by
each record-update call. -/
structure St where
  fs : Fs
  store : List MediaRecord
  nextOid : Nat
  nextUuid : Nat
  log : List (List MediaRecord)
deriving DecidableEq, Repr

/-- Persist a document via `media.save()`, logging the persisted state. -/
def stSave (s : St) (r : MediaRecord) : St :=
  let store := saveRecord s.store r
  { s with store := store, log := s.log ++ [store] }

/-- The `req.file` object produced by multer. -/
structure UploadedFile where
  path : FsPath
  filename : String
  originalname : String
  mimetype : String
  size : Nat
deriving DecidableEq, Repr

/-- Outcomes of the two synchronous `sharp` encodes in the image upload
branch: `some n` = wrote an `n`-byte file, `none` = encode/storage failure. -/
structure UploadEnv where
  webpResult : Option Nat
  thumbResult : Option Nat
deriving DecidableEq, Repr

/-- Outcome of the synchronous `sharp` re-encode in `optimizeMedia`. -/
structure OptEnv where
  webpResult : Option Nat
deriving DecidableEq, Repr

/-- A detached background `ffmpeg` job launched by a controller, carrying the
values its completion callback closed over. -/
inductive BgJob where
  | videoThumb (outPath : FsPath)
  | uploadTranscode (targetId : DbId) (origPath outPath : FsPath) (optimizedUrl : String)
  | optimizeTranscode (captured : MediaRecord) (srcPath outPath : FsPath) (optimizedUrl : String)
deriving DecidableEq, Repr

/-- `Media.create(fields)` followed by the `201` response, shared by the three
upload branches: the store assigns the next `ObjectId` to the new document. -/
def mediaCreate (s : St) (jobs : List BgJob) (newFileName : String)
    (file : UploadedFile) (fileSize : Nat) (fileUrl : String)
    (thumbnailUrl optimizedFileUrl : Option String) (userId : String)
    (isOptimized : Bool) : St × List BgJob × Except ApiErr Response :=
  let r : MediaRecord :=
    { id := DbId.oid s.nextOid, fileName := newFileName,
      originalFileName := file.originalname, fileType := file.mimetype,
      fileSize := fileSize, fileUrl := fileUrl, thumbnailUrl := thumbnailUrl,
      optimizedFileUrl := optimizedFileUrl, userId := userId,
      isOptimized := isOptimized }
  ({ s with store := s.store ++ [r], nextOid := s.nextOid + 1 }, jobs,
    .ok { status := 201, media := some (mediaView r) })

/-- `uploadMedia` (media controller): classify, generate derivatives
(synchronously for images, as detached jobs for videos), create the record,
answer `201`.  Synchronous failures leave already-performed filesystem writes
in place and report the error (the `catch` block only builds the response). -/
def uploadMedia (s : St) (host : String) (userId? : Option String)
    (file? : Option UploadedFile) (env : UploadEnv) :
    St × List BgJob × Except ApiErr Response :=
  match file? with
  | none => (s, [], .error ⟨"No file uploaded", 400⟩)
  | some file =>
    match userId? with
    | none => (s, [], .error ⟨"User not authenticated", 401⟩)
    | some userId =>
      let baseUrl := "https://" ++ host
      let mediaType := mediaTypeDir file.mimetype
      if isImage file.mimetype then
        let webpFilename := parseName file.filename ++ ".webp"
        let optimizedPath := getOptimizedPath userId mediaType webpFilename
        match env.webpResult with
        | none => (s, [], .error ⟨"Image encode failed", 500⟩)
        | some optimizedSize =>
          let fs1 := fsWrite s.fs optimizedPath optimizedSize
          let optimizedFileUrl :=
            baseUrl ++ "/uploads/" ++ userId ++ "/" ++ mediaType ++ "/optimized/" ++ webpFilename
          let thumbnailFilename := "thumb_" ++ webpFilename
          let thumbnailPath := getThumbnailPath userId thumbnailFilename
          match env.thumbResult with
          | none => ({ s with fs := fs1 }, [], .error ⟨"Thumbnail encode failed", 500⟩)
          | some thumbSize =>
            let fs2 := fsWrite fs1 thumbnailPath thumbSize
            let thumbnailUrl :=
              baseUrl ++ "/uploads/" ++ userId ++ "/thumbnails/" ++ thumbnailFilename
            let fs3 := fsErase fs2 file.path
            mediaCreate { s with fs := fs3 } [] webpFilename file optimizedSize
              optimizedFileUrl (some thumbnailUrl) (some optimizedFileUrl) userId true
      else if isVideo file.mimetype then
        let fileUrl := baseUrl ++ "/uploads/" ++ userId ++ "/" ++ mediaType ++ "/" ++ file.filename
        let thumbnailFilename := "thumb_" ++ parseName file.filename ++ ".jpg"
        let thumbnailPath := getThumbnailPath userId thumbnailFilename
        let thumbnailUrl :=
          baseUrl ++ "/uploads/" ++ userId ++ "/thumbnails/" ++ thumbnailFilename
        let optimizedFilename := "opt_" ++ parseName file.filename ++ ".mp4"
        let optimizedPath := getOptimizedPath userId mediaType optimizedFilename
        let optimizedUrl :=
          baseUrl ++ "/uploads/" ++ userId ++ "/" ++ mediaType ++ "/optimized/" ++ optimizedFilename
        let dbRecordId := DbId.uuid s.nextUuid
        let s1 := { s with nextUuid := s.nextUuid + 1 }
        let jobs := [BgJob.videoThumb thumbnailPath,
                     BgJob.uploadTranscode dbRecordId file.path optimizedPath optimizedUrl]
        mediaCreate s1 jobs file.filename file file.size fileUrl (some thumbnailUrl)
          none userId false
      else
        let fileUrl := baseUrl ++ "/uploads/" ++ userId ++ "/" ++ mediaType ++ "/" ++ file.filename
        mediaCreate s [] file.filename file file.size fileUrl none none userId false

/-- The video-thumbnail job's success: the still frame is written. -/
def videoThumbEnd (s : St) (outPath : FsPath) (size : Nat) : St :=
  { s with fs := fsWrite s.fs outPath size }

/-- The video-thumbnail job's `error` handler: `console.error` only. -/
def videoThumbError (s : St) : St :=
  s

/-- The `end` callback of the transcode launched by `uploadMedia`:
`statSync` the output, `Media.findByIdAndUpdate(dbRecordId, …)`, then unlink
the original.  A missing output or the failed `ObjectId` cast of a UUID value
is caught and logged, leaving the state untouched. -/
def uploadTranscodeEnd (s : St) (targetId : DbId) (origPath outPath : FsPath)
    (optimizedUrl : String) : St :=
  match fsLookup s.fs outPath with
  | none => s
  | some size =>
    match targetId with
    | .uuid _ => s
    | .oid _ =>
      let store := s.store.map fun r =>
        if r.id == targetId then
          { r with optimizedFileUrl := some optimizedUrl, isOptimized := true,
                   fileSize := size }
        else r
      let s1 := { s with store := store, log := s.log ++ [store] }
      { s1 with fs := fsErase s1.fs origPath }

/-- The transcode job's `error` handler: `console.error` only. -/
def uploadTranscodeError (s : St) : St :=
  s

/-- The `end` callback of the transcode launched by `optimizeMedia`: `statSync`
the output, set `optimizedFileUrl`/`isOptimized`/`fileSize`/`fileUrl` on the
captured document, `save()` it, then unlink the source if distinct. -/
def optimizeTranscodeEnd (s : St) (captured : MediaRecord)
    (srcPath outPath : FsPath) (optimizedUrl : String) : St :=
  match fsLookup s.fs outPath with
  | none => s
  | some size =>
    let m := { captured with optimizedFileUrl := some optimizedUrl,
                             isOptimized := true, fileSize := size,
                             fileUrl := optimizedUrl }
    let s1 := stSave s m
    if fsExists s1.fs srcPath && !(srcPath == outPath) then
      { s1 with fs := fsErase s1.fs srcPath }
    else s1

/-- `optimizeMedia` (media controller): look the record up, short-circuit when
already optimized, then re-encode images synchronously or launch the video
transcode job.  (`baseUrl` is modelled with the `https` scheme, as in
`uploadMedia`.) -/
def optimizeMedia (s : St) (host : String) (userId? : Option String)
    (mediaId : DbId) (env : OptEnv) : St × List BgJob × Except ApiErr Response :=
  match userId? with
  | none => (s, [], .error ⟨"User not authenticated", 401⟩)
  | some userId =>
    match findOne s.store mediaId userId with
    | none => (s, [], .error ⟨"Media not found", 404⟩)
    | some media =>
      if media.isOptimized && media.optimizedFileUrl.isSome then
        (s, [], .ok { status := 200, media := some (mediaView media) })
      else
        let mediaType := mediaTypeOf media.fileType
        let baseUrl := "https://" ++ host
        if isImage media.fileType then
          if !(jsEndsWith media.fileName ".webp") then
            let webpFilename := "opt_" ++ parseName media.fileName ++ ".webp"
            let optimizedPath := getOptimizedPath userId mediaType webpFilename
            let optimizedUrl :=
              baseUrl ++ "/uploads/" ++ userId ++ "/" ++ mediaType ++ "/optimized/" ++ webpFilename
            let sourcePath := getUserFilePath userId mediaType media.fileName
            match env.webpResult with
            | none => (s, [], .error ⟨"Image encode failed", 500⟩)
            | some size =>
              let s1 := { s with fs := fsWrite s.fs optimizedPath size }
              let m1 := { media with optimizedFileUrl := some optimizedUrl,
                                     isOptimized := true, fileSize := size }
              let s2 := stSave s1 m1
              if fsExists s2.fs sourcePath && !(sourcePath == optimizedPath) then
                let s3 := { s2 with fs := fsErase s2.fs sourcePath }
                let m2 := { m1 with fileUrl := optimizedUrl }
                let s4 := stSave s3 m2
                (s4, [], .ok { status := 200, media := some (mediaView m2) })
              else
                (s2, [], .ok { status := 200, media := some (mediaView m1) })
          else
            let m1 := { media with isOptimized := true }
            let s1 := stSave s m1
            (s1, [], .ok { status := 200, media := some (mediaView m1) })
        else if isVideo media.fileType then
          let optimizedFilename := "opt_" ++ parseName media.fileName ++ ".mp4"
          let optimizedPath := getOptimizedPath userId mediaType optimizedFilename
          let optimizedUrl :=
            baseUrl ++ "/uploads/" ++ userId ++ "/" ++ mediaType ++ "/optimized/" ++ optimizedFilename
          let sourcePath := getUserFilePath userId mediaType media.fileName
          (s, [BgJob.optimizeTranscode media sourcePath optimizedPath optimizedUrl],
            .ok { status := 202, media := some (mediaView media) })
        else
          (s, [], .error ⟨"File type not supported for optimization", 400⟩)

/-- The filesystem-cleanup stage of `deleteMedia`: unlink (exists-guarded) the
canonical artifact unless its URL lies in the `optimized` subtree, the
thumbnail when `thumbnailUrl` is set, and the optimized artifact when
`optimizedFileUrl` is set or the canonical URL lies in the `optimized`
subtree. -/
def deleteMediaFsStage (s : St) (userId : String) (media : MediaRecord) : St :=
  let mediaType := mediaTypeOf media.fileType
  let s1 :=
    if !(media.fileUrl == "") && !(jsIncludes media.fileUrl "/optimized/") then
      { s with fs := fsErase s.fs (getUserFilePath userId mediaType media.fileName) }
    else s
  let s2 :=
    match media.thumbnailUrl with
    | some turl =>
      { s1 with fs := fsErase s1.fs (getThumbnailPath userId (urlBasename turl)) }
    | none => s1
  if media.optimizedFileUrl.isSome || jsIncludes media.fileUrl "/optimized/" then
    let url := media.optimizedFileUrl.getD media.fileUrl
    { s2 with fs := fsErase s2.fs (getOptimizedPath userId mediaType (urlBasename url)) }
  else s2

/-- `deleteMedia` (media controller): look the record up by `(id, owner)`,
clean the filesystem, then `media.deleteOne()`. -/
def deleteMedia (s : St) (userId? : Option String) (mediaId : DbId) :
    St × Except ApiErr Response :=
  match userId? with
  | none => (s, .error ⟨"User not authenticated", 401⟩)
  | some userId =>
    match findOne s.store mediaId userId with
    | none => (s, .error ⟨"Media not found", 404⟩)
    | some media =>
      let s1 := deleteMediaFsStage s userId media
      let s2 := { s1 with store := s1.store.filter (fun r => !(r.id == mediaId)) }
      (s2, .ok { status := 200, media := none })

/-! ## Helper lemmas about the embedded JS string predicates -/

theorem jsStartsWith_iff {m p : String} : jsStartsWith m p = true ↔ p.data <+: m.data := by
  simp [jsStartsWith]

theorem jsStartsWith_weaken {m p q : String} (hpq : q.data <+: p.data)
    (h : jsStartsWith m p = true) : jsStartsWith m q = true := by
  rw [jsStartsWith_iff] at h ⊢
  exact hpq.trans h

theorem jsStartsWith_head {m p : String} (h : jsStartsWith m p = true)
    (hp : p.data ≠ []) : m.data.head? = p.data.head? := by
  rw [jsStartsWith_iff] at h
  obtain ⟨t, ht⟩ := h
  cases hd : p.data with
  | nil => exact absurd hd hp
  | cons a l => rw [← ht, hd]; simp

theorem jsStartsWith_false_of_heads_differ {m p q : String}
    (h : jsStartsWith m p = true) (hp : p.data ≠ []) (hq : q.data ≠ [])
    (hne : p.data.head? ≠ q.data.head?) : jsStartsWith m q = false := by
  rw [Bool.eq_false_iff]
  intro hx
  have e1 := jsStartsWith_head h hp
  have e2 := jsStartsWith_head hx hq
  exact hne (e1.symm.trans e2)

theorem isVideo_eq_false_of_isImage {m : String} (h : isImage m = true) :
    isVideo m = false :=
  jsStartsWith_false_of_heads_differ h (by decide) (by decide) (by decide)

theorem isImage_eq_false_of_isVideo {m : String} (h : isVideo m = true) :
    isImage m = false :=
  jsStartsWith_false_of_heads_differ h (by decide) (by decide) (by decide)

/-! ## C8 — the classifier -/

/-- C8: for every MIME type string, the classifier used to dispatch derivative
processing yields `image` exactly when the string starts with `image/`,
`video` exactly when it starts with `video/`, and `document` in every other
case.  (`classify` is a total Lean function, so it is pure, with no side
effects and no failure mode.) -/
theorem classify_prefix_characterization (m : String) :
    (classify m = .image ↔ jsStartsWith m "image/" = true) ∧
    (classify m = .video ↔ jsStartsWith m "video/" = true) ∧
    (classify m = .document ↔
      (jsStartsWith m "image/" = false ∧ jsStartsWith m "video/" = false)) := by
  cases hI : isImage m with
  | false =>
    cases hV : isVideo m with
    | false =>
      have hI' := hI; have hV' := hV
      simp only [isImage, isVideo] at hI' hV'
      simp [classify, hI, hV, hI', hV']
    | true =>
      have hI' := hI; have hV' := hV
      simp only [isImage, isVideo] at hI' hV'
      simp [classify, hI, hV, hI', hV']
  | true =>
    have hV := isVideo_eq_false_of_isImage hI
    have hI' := hI; have hV' := hV
    simp only [isImage, isVideo] at hI' hV'
    simp [classify, hI, hV, hI', hV']

/-! ## C9 — storage path shapes and owner scoping -/

/-- C9: the three storage-path resolvers produce exactly the shapes
`base/ownerId/category/filename`, `base/ownerId/category/optimized/filename`
and `base/ownerId/thumbnails/filename`; the owner segment of every resolved
path is the requesting owner's id, and a path resolved for owner `u` never
contains a different owner `b`'s id (for any `b` distinct from the owner, the
base directory, the fixed `optimized`/`thumbnails` directory names, and the
category and file-name segments of the request). -/
theorem storagePaths_shape_and_owner_scoped (u c f b : String)
    (hb : b ≠ BASE_UPLOAD_PATH) (hu : b ≠ u) (hc : b ≠ c) (hf : b ≠ f)
    (ho : b ≠ "optimized") (ht : b ≠ "thumbnails") :
    getUserFilePath u c f = [BASE_UPLOAD_PATH, u, c, f] ∧
    getOptimizedPath u c f = [BASE_UPLOAD_PATH, u, c, "optimized", f] ∧
    getThumbnailPath u f = [BASE_UPLOAD_PATH, u, "thumbnails", f] ∧
    (getUserFilePath u c f).get? 1 = some u ∧
    (getOptimizedPath u c f).get? 1 = some u ∧
    (getThumbnailPath u f).get? 1 = some u ∧
    b ∉ getUserFilePath u c f ∧
    b ∉ getOptimizedPath u c f ∧
    b ∉ getThumbnailPath u f := by
  refine ⟨rfl, rfl, rfl, rfl, rfl, rfl, ?_, ?_, ?_⟩ <;>
    simp [getUserFilePath, getOptimizedPath, getThumbnailPath] <;>
    tauto

theorem storagePaths_shape_and_owner_scoped_witness :
    getUserFilePath "ownerA" "images" "photo.webp" =
      [BASE_UPLOAD_PATH, "ownerA", "images", "photo.webp"] ∧
    "ownerB" ∉ getOptimizedPath "ownerA" "images" "photo.webp" := by
  have h := storagePaths_shape_and_owner_scoped "ownerA" "images" "photo.webp" "ownerB"
    (by decide) (by decide) (by decide) (by decide) (by decide) (by decide)
  exact ⟨h.1, h.2.2.2.2.2.2.2.1⟩

/-! ## C10 — storage category dir agrees with the processing branch -/

/-- C10: for every MIME type accepted by either upload route's file filter,
the storage category directory chosen by the slash-less `startsWith('image')`
/ `startsWith('video')` ternary agrees with the derivative-processing branch
chosen by `isImage`/`isVideo` (which test `image/` and `video/`): a file
stored under `images` is processed by the image branch, one stored under
`videos` by the video branch, and one stored under `documents` by neither. -/
theorem mediaTypeDir_agrees_with_classify (m : String)
    (h : fileFilterAccepts m = true ∨ externalFilterAccepts m = true) :
    mediaTypeDir m = categoryDir (classify m) ∧
    (mediaTypeDir m = "images" ↔ classify m = .image) ∧
    (mediaTypeDir m = "videos" ↔ classify m = .video) ∧
    (mediaTypeDir m = "documents" ↔ classify m = .document) := by
  rcases h with h | h
  · have hm : m ∈ allowedMimeTypes := by
      simpa [fileFilterAccepts, List.contains, List.elem_eq_mem] using h
    fin_cases hm <;> exact ⟨by decide, by decide, by decide, by decide⟩
  · have h' : jsStartsWith m "image/" = true ∨ jsStartsWith m "video/" = true := by
      simpa [externalFilterAccepts, Bool.or_eq_true] using h
    rcases h' with h1 | h1
    · have h2 : jsStartsWith m "image" = true :=
        jsStartsWith_weaken (by decide) h1
      simp [mediaTypeDir, classify, isImage, isVideo, categoryDir, h1, h2]
    · have h2 : jsStartsWith m "video" = true :=
        jsStartsWith_weaken (by decide) h1
      have h3 : jsStartsWith m "image" = false :=
        jsStartsWith_false_of_heads_differ h1 (by decide) (by decide) (by decide)
      have h4 : jsStartsWith m "image/" = false :=
        jsStartsWith_false_of_heads_differ h1 (by decide) (by decide) (by decide)
      simp [mediaTypeDir, classify, isImage, isVideo, categoryDir, h1, h2, h3, h4]

theorem mediaTypeDir_agrees_with_classify_witness :
    (fileFilterAccepts "video/mp4" = true ∨ externalFilterAccepts "video/mp4" = true) ∧
    mediaTypeDir "video/mp4" = categoryDir (classify "video/mp4") := by
  refine ⟨Or.inl (by decide), ?_⟩
  exact (mediaTypeDir_agrees_with_classify "video/mp4" (Or.inl (by decide))).1

/-! ## Helper lemmas about the filesystem model -/

theorem fsLookup_erase_self (fs : Fs) (p : FsPath) :
    fsLookup (fsErase fs p) p = none := by
  induction fs with
  | nil => rfl
  | cons e fs ih =>
    by_cases h : e.1 = p
    · rw [show fsErase (e :: fs) p = fsErase fs p by simp [fsErase, h]]
      exact ih
    · simp only [fsErase, fsLookup] at ih ⊢
      simp [List.filter_cons, h, List.find?_cons, ih]

theorem find?_erase_ne (fs : Fs) {p q : FsPath} (h : p ≠ q) :
    (fsErase fs p).find? (fun e => e.1 == q) = fs.find? (fun e => e.1 == q) := by
  induction fs with
  | nil => rfl
  | cons e fs ih =>
    show (List.filter _ (e :: fs)).find? _ = _
    rw [List.filter_cons]
    by_cases he : e.1 = p
    · have h1 : (!(e.1 == p)) = false := by simp [he]
      have h2 : ¬ ((e.1 == q) = true) := by
        simp only [beq_iff_eq, he]
        exact h
      rw [h1, if_neg Bool.false_ne_true,
        List.find?_cons_of_neg (p := fun e => e.1 == q) (a := e) fs h2]
      exact ih
    · have h1 : (!(e.1 == p)) = true := by simp [he]
      rw [h1, if_pos rfl]
      by_cases hq : ((e.1 == q) = true)
      · rw [List.find?_cons_of_pos (p := fun e => e.1 == q) (a := e) _ hq,
          List.find?_cons_of_pos (p := fun e => e.1 == q) (a := e) _ hq]
      · rw [List.find?_cons_of_neg (p := fun e => e.1 == q) (a := e) _ hq,
          List.find?_cons_of_neg (p := fun e => e.1 == q) (a := e) _ hq]
        exact ih

theorem fsLookup_erase_ne (fs : Fs) {p q : FsPath} (h : p ≠ q) :
    fsLookup (fsErase fs p) q = fsLookup fs q := by
  unfold fsLookup
  rw [find?_erase_ne fs h]

theorem fsLookup_write_self (fs : Fs) (p : FsPath) (n : Nat) :
    fsLookup (fsWrite fs p n) p = some n := by
  simp [fsWrite, fsLookup]

theorem fsLookup_write_ne (fs : Fs) {p q : FsPath} (n : Nat) (h : p ≠ q) :
    fsLookup (fsWrite fs p n) q = fsLookup fs q := by
  unfold fsWrite fsLookup
  rw [List.find?_cons_of_neg _ (by simp [h]), find?_erase_ne fs h]

/-! ## C2 — accepted image uploads -/

/-- C2: for every accepted image upload (both synchronous encodes succeed),
the returned/persisted record has `isOptimized = true`, its `fileUrl` equal to
its `optimizedFileUrl`, and its `fileSize` equal to the byte size of the
optimized artifact on disk; no file remains at the pre-optimization original
path.  (`file.path ≠ optimizedPath` holds for every multer-stored upload: the
staging path never contains the `optimized` segment.) -/
theorem imageUpload_optimized_invariants
    (s : St) (host userId : String) (file : UploadedFile) (env : UploadEnv)
    (n t : Nat)
    (himg : isImage file.mimetype = true)
    (hw : env.webpResult = some n)
    (ht : env.thumbResult = some t)
    (hp : file.path ≠ getOptimizedPath userId (mediaTypeDir file.mimetype)
        (parseName file.filename ++ ".webp")) :
    ∃ r : MediaRecord,
      (uploadMedia s host (some userId) (some file) env).1.store = s.store ++ [r] ∧
      (uploadMedia s host (some userId) (some file) env).2.2 =
        .ok { status := 201, media := some (mediaView r) } ∧
      r.isOptimized = true ∧
      r.optimizedFileUrl = some r.fileUrl ∧
      r.fileSize = n ∧
      fsLookup (uploadMedia s host (some userId) (some file) env).1.fs
        (getOptimizedPath userId (mediaTypeDir file.mimetype)
          (parseName file.filename ++ ".webp")) = some n ∧
      fsLookup (uploadMedia s host (some userId) (some file) env).1.fs file.path = none := by
  have hto : getThumbnailPath userId ("thumb_" ++ (parseName file.filename ++ ".webp")) ≠
      getOptimizedPath userId (mediaTypeDir file.mimetype)
        (parseName file.filename ++ ".webp") := by
    simp [getThumbnailPath, getOptimizedPath]
  simp only [uploadMedia, mediaCreate, himg, hw, ht, if_true]
  refine ⟨_, rfl, rfl, rfl, rfl, rfl, ?_, ?_⟩
  · rw [fsLookup_erase_ne _ hp, fsLookup_write_ne _ _ hto, fsLookup_write_self]
  · rw [fsLookup_erase_self]

theorem imageUpload_optimized_invariants_witness :
    isImage "image/png" = true ∧
    ∃ r : MediaRecord,
      (uploadMedia ⟨[(["./uploads", "u1", "images", "a.png"], 100)], [], 0, 0, []⟩
        "h.example" (some "u1")
        (some ⟨["./uploads", "u1", "images", "a.png"], "a.png", "photo.png",
          "image/png", 100⟩) ⟨some 42, some 7⟩).1.store = [] ++ [r] ∧
      (uploadMedia ⟨[(["./uploads", "u1", "images", "a.png"], 100)], [], 0, 0, []⟩
        "h.example" (some "u1")
        (some ⟨["./uploads", "u1", "images", "a.png"], "a.png", "photo.png",
          "image/png", 100⟩) ⟨some 42, some 7⟩).2.2 =
        .ok { status := 201, media := some (mediaView r) } ∧
      r.isOptimized = true ∧
      r.optimizedFileUrl = some r.fileUrl ∧
      r.fileSize = 42 ∧
      fsLookup (uploadMedia ⟨[(["./uploads", "u1", "images", "a.png"], 100)], [], 0, 0, []⟩
        "h.example" (some "u1")
        (some ⟨["./uploads", "u1", "images", "a.png"], "a.png", "photo.png",
          "image/png", 100⟩) ⟨some 42, some 7⟩).1.fs
        (getOptimizedPath "u1" (mediaTypeDir "image/png")
          (parseName "a.png" ++ ".webp")) = some 42 ∧
      fsLookup (uploadMedia ⟨[(["./uploads", "u1", "images", "a.png"], 100)], [], 0, 0, []⟩
        "h.example" (some "u1")
        (some ⟨["./uploads", "u1", "images", "a.png"], "a.png", "photo.png",
          "image/png", 100⟩) ⟨some 42, some 7⟩).1.fs
        ["./uploads", "u1", "images", "a.png"] = none := by
  refine ⟨by decide, ?_⟩
  exact imageUpload_optimized_invariants
    ⟨[(["./uploads", "u1", "images", "a.png"], 100)], [], 0, 0, []⟩
    "h.example" "u1"
    ⟨["./uploads", "u1", "images", "a.png"], "a.png", "photo.png", "image/png", 100⟩
    ⟨some 42, some 7⟩ 42 7 (by decide) rfl rfl (by decide)

/-! ## C1 — the video transcode callback is keyed to the wrong id -/

/-- C1 (refuted by the code — id-binding bug): for every accepted video
upload, the record is persisted under the store-assigned `ObjectId`
`DbId.oid s.nextOid`, while the launched transcode job's completion callback
is keyed to `dbRecordId = uuidv4()` (`DbId.uuid s.nextUuid`), a value invented
*before* `Media.create` ran.  The two identifiers are never equal, and a
transcode completion keyed to a UUID value updates no record at all (the
`ObjectId` cast fails and is merely logged): the state is left untouched, so
the uploaded record is never marked `isOptimized`. -/
theorem videoUpload_callback_id_mismatch
    (s : St) (host userId : String) (file : UploadedFile) (env : UploadEnv)
    (hv : isVideo file.mimetype = true) :
    ∃ (r : MediaRecord) (thumbPath origPath optimizedPath : FsPath)
      (optimizedUrl : String),
      (uploadMedia s host (some userId) (some file) env).1.store = s.store ++ [r] ∧
      r.id = DbId.oid s.nextOid ∧
      r.isOptimized = false ∧
      (uploadMedia s host (some userId) (some file) env).2.1 =
        [BgJob.videoThumb thumbPath,
         BgJob.uploadTranscode (DbId.uuid s.nextUuid) origPath optimizedPath
           optimizedUrl] ∧
      DbId.uuid s.nextUuid ≠ r.id ∧
      (∀ (s2 : St) (k : Nat) (a b : FsPath) (u : String),
        uploadTranscodeEnd s2 (DbId.uuid k) a b u = s2) := by
  have hi := isImage_eq_false_of_isVideo hv
  simp only [uploadMedia, mediaCreate, hi, hv, Bool.false_eq_true, if_false, if_true]
  refine ⟨_, _, _, _, _, rfl, rfl, rfl, rfl, by simp, ?_⟩
  intro s2 k a b u
  cases h : fsLookup s2.fs b <;> simp [uploadTranscodeEnd, h]

theorem videoUpload_callback_id_mismatch_witness :
    isVideo "video/mp4" = true ∧
    ∃ (r : MediaRecord) (thumbPath origPath optimizedPath : FsPath)
      (optimizedUrl : String),
      (uploadMedia ⟨[(["./uploads", "u1", "videos", "c.mp4"], 500)], [], 0, 0, []⟩
        "h.example" (some "u1")
        (some ⟨["./uploads", "u1", "videos", "c.mp4"], "c.mp4", "clip.mp4",
          "video/mp4", 500⟩) ⟨none, none⟩).1.store = [] ++ [r] ∧
      r.id = DbId.oid 0 ∧
      r.isOptimized = false ∧
      (uploadMedia ⟨[(["./uploads", "u1", "videos", "c.mp4"], 500)], [], 0, 0, []⟩
        "h.example" (some "u1")
        (some ⟨["./uploads", "u1", "videos", "c.mp4"], "c.mp4", "clip.mp4",
          "video/mp4", 500⟩) ⟨none, none⟩).2.1 =
        [BgJob.videoThumb thumbPath,
         BgJob.uploadTranscode (DbId.uuid 0) origPath optimizedPath optimizedUrl] ∧
      DbId.uuid 0 ≠ r.id ∧
      (∀ (s2 : St) (k : Nat) (a b : FsPath) (u : String),
        uploadTranscodeEnd s2 (DbId.uuid k) a b u = s2) :=
  ⟨by decide,
    videoUpload_callback_id_mismatch
      ⟨[(["./uploads", "u1", "videos", "c.mp4"], 500)], [], 0, 0, []⟩
      "h.example" "u1"
      ⟨["./uploads", "u1", "videos", "c.mp4"], "c.mp4", "clip.mp4", "video/mp4", 500⟩
      ⟨none, none⟩ (by decide)⟩

/-! ## C6 — video thumbnail failure handling -/

/-- C6 (amended): for every accepted video upload, the thumbnail job's
failure handler only logs (it is the identity on the system state), the
upload response is the `201` success regardless of the job's outcome — but
the persisted record's `thumbnailUrl` is *not* left unset: it is set at
record creation to the anticipated thumbnail locator, before the job runs. -/
theorem videoUpload_thumbFailure_only_logged
    (s : St) (host userId : String) (file : UploadedFile) (env : UploadEnv)
    (hv : isVideo file.mimetype = true) :
    ∃ r : MediaRecord,
      (uploadMedia s host (some userId) (some file) env).1.store = s.store ++ [r] ∧
      (uploadMedia s host (some userId) (some file) env).2.2 =
        .ok { status := 201, media := some (mediaView r) } ∧
      (∀ s2 : St, videoThumbError s2 = s2) ∧
      r.thumbnailUrl.isSome = true := by
  have hi := isImage_eq_false_of_isVideo hv
  simp only [uploadMedia, mediaCreate, hi, hv, Bool.false_eq_true, if_false, if_true]
  exact ⟨_, rfl, rfl, fun _ => rfl, rfl⟩

theorem videoUpload_thumbFailure_only_logged_witness :
    isVideo "video/mp4" = true ∧
    ∃ r : MediaRecord,
      (uploadMedia ⟨[(["./uploads", "u1", "videos", "c.mp4"], 500)], [], 0, 0, []⟩
        "h2.example" (some "u1")
        (some ⟨["./uploads", "u1", "videos", "c.mp4"], "c.mp4", "clip.mp4",
          "video/mp4", 500⟩) ⟨none, none⟩).1.store = [] ++ [r] ∧
      (uploadMedia ⟨[(["./uploads", "u1", "videos", "c.mp4"], 500)], [], 0, 0, []⟩
        "h2.example" (some "u1")
        (some ⟨["./uploads", "u1", "videos", "c.mp4"], "c.mp4", "clip.mp4",
          "video/mp4", 500⟩) ⟨none, none⟩).2.2 =
        .ok { status := 201, media := some (mediaView r) } ∧
      (∀ s2 : St, videoThumbError s2 = s2) ∧
      r.thumbnailUrl.isSome = true :=
  ⟨by decide,
    videoUpload_thumbFailure_only_logged
      ⟨[(["./uploads", "u1", "videos", "c.mp4"], 500)], [], 0, 0, []⟩
      "h2.example" "u1"
      ⟨["./uploads", "u1", "videos", "c.mp4"], "c.mp4", "clip.mp4", "video/mp4", 500⟩
      ⟨none, none⟩ (by decide)⟩

/-- C6 counterexample: a concrete video upload whose thumbnail job fails
(only the `error` handler runs afterwards) still persists a record whose
`thumbnailUrl` is set — to the locator of the thumbnail that was never
produced — refuting "the persisted record's `thumbnailUrl` is left unset". -/
theorem videoUpload_thumbFailure_thumbnailUrl_set :
    (videoThumbError
      (uploadMedia ⟨[(["./uploads", "u1", "videos", "c.mp4"], 500)], [], 0, 0, []⟩
        "h.example" (some "u1")
        (some ⟨["./uploads", "u1", "videos", "c.mp4"], "c.mp4", "clip.mp4",
          "video/mp4", 500⟩) ⟨none, none⟩).1).store.map
      (fun r => r.thumbnailUrl) =
    [some "https://h.example/uploads/u1/thumbnails/thumb_c.jpg"] := by
  decide

/-! ## C3 — synchronous image-processing failure aborts the ingestion -/

instance {e a : Type} [DecidableEq e] [DecidableEq a] : DecidableEq (Except e a) :=
  fun x y =>
    match x, y with
    | .ok v, .ok w =>
      if h : v = w then .isTrue (congrArg Except.ok h)
      else .isFalse fun hh => h (Except.ok.inj hh)
    | .error v, .error w =>
      if h : v = w then .isTrue (congrArg Except.error h)
      else .isFalse fun hh => h (Except.error.inj hh)
    | .ok _, .error _ => .isFalse fun hh => Except.noConfusion hh
    | .error _, .ok _ => .isFalse fun hh => Except.noConfusion hh

/-- C3 (amended): when a synchronous encode of an image upload fails, the
whole ingestion is aborted — no record is created, no persisted-state update
happens, no background job is launched, the failure is reported as an error,
and the original uploaded bytes are untouched (the delete-original step is
never reached) — but any file already written in that attempt (the optimized
derivative, when the thumbnail encode is the step that fails) is *not*
cleaned up: it remains on disk when the error is returned. -/
theorem imageUpload_syncFailure_aborts
    (s : St) (host userId : String) (file : UploadedFile) (env : UploadEnv)
    (himg : isImage file.mimetype = true)
    (hfail : env.webpResult = none ∨ env.thumbResult = none) :
    ∃ e : ApiErr,
      (uploadMedia s host (some userId) (some file) env).2.2 = .error e ∧
      (uploadMedia s host (some userId) (some file) env).1.store = s.store ∧
      (uploadMedia s host (some userId) (some file) env).1.log = s.log ∧
      (uploadMedia s host (some userId) (some file) env).2.1 = [] ∧
      (file.path ≠ getOptimizedPath userId (mediaTypeDir file.mimetype)
          (parseName file.filename ++ ".webp") →
        fsLookup (uploadMedia s host (some userId) (some file) env).1.fs
          file.path = fsLookup s.fs file.path) ∧
      (∀ n, env.webpResult = some n →
        fsLookup (uploadMedia s host (some userId) (some file) env).1.fs
          (getOptimizedPath userId (mediaTypeDir file.mimetype)
            (parseName file.filename ++ ".webp")) = some n) := by
  cases hw : env.webpResult with
  | none =>
    refine ⟨⟨"Image encode failed", 500⟩, ?_, ?_, ?_, ?_, ?_, ?_⟩
    · simp [uploadMedia, himg, hw]
    · simp [uploadMedia, himg, hw]
    · simp [uploadMedia, himg, hw]
    · simp [uploadMedia, himg, hw]
    · intro hp
      simp [uploadMedia, himg, hw]
    · intro k hk
      exact Option.noConfusion hk
  | some n =>
    have ht : env.thumbResult = none := by
      rcases hfail with h | h
      · rw [hw] at h
        exact Option.noConfusion h
      · exact h
    refine ⟨⟨"Thumbnail encode failed", 500⟩, ?_, ?_, ?_, ?_, ?_, ?_⟩
    · simp [uploadMedia, himg, hw, ht]
    · simp [uploadMedia, himg, hw, ht]
    · simp [uploadMedia, himg, hw, ht]
    · simp [uploadMedia, himg, hw, ht]
    · intro hp
      simp only [uploadMedia, himg, hw, ht, if_true]
      exact fsLookup_write_ne s.fs n (fun hh => hp hh.symm)
    · intro k hk
      injection hk with h
      subst h
      simp only [uploadMedia, himg, hw, ht, if_true]
      exact fsLookup_write_self s.fs _ n

/-- C3 counterexample: a concrete image upload whose thumbnail encode fails
after the optimized WebP was written.  The ingestion is aborted with an error
and no record, and the original bytes survive — but the partially-written
optimized file is still on disk when the error is returned, refuting "any
partially-written optimized or thumbnail file from that attempt is cleaned up
before the error is returned". -/
theorem imageUpload_syncFailure_no_cleanup :
    (uploadMedia ⟨[(["./uploads", "u1", "images", "a.png"], 100)], [], 0, 0, []⟩
      "h.example" (some "u1")
      (some ⟨["./uploads", "u1", "images", "a.png"], "a.png", "photo.png",
        "image/png", 100⟩) ⟨some 42, none⟩).2.2 =
      .error ⟨"Thumbnail encode failed", 500⟩ ∧
    (uploadMedia ⟨[(["./uploads", "u1", "images", "a.png"], 100)], [], 0, 0, []⟩
      "h.example" (some "u1")
      (some ⟨["./uploads", "u1", "images", "a.png"], "a.png", "photo.png",
        "image/png", 100⟩) ⟨some 42, none⟩).1.store = [] ∧
    fsLookup (uploadMedia ⟨[(["./uploads", "u1", "images", "a.png"], 100)], [], 0, 0, []⟩
      "h.example" (some "u1")
      (some ⟨["./uploads", "u1", "images", "a.png"], "a.png", "photo.png",
        "image/png", 100⟩) ⟨some 42, none⟩).1.fs
      ["./uploads", "u1", "images", "a.png"] = some 100 ∧
    fsLookup (uploadMedia ⟨[(["./uploads", "u1", "images", "a.png"], 100)], [], 0, 0, []⟩
      "h.example" (some "u1")
      (some ⟨["./uploads", "u1", "images", "a.png"], "a.png", "photo.png",
        "image/png", 100⟩) ⟨some 42, none⟩).1.fs
      ["./uploads", "u1", "images", "optimized", "a.webp"] = some 42 := by
  decide

theorem imageUpload_syncFailure_aborts_witness :
    isImage "image/png" = true ∧
    ((⟨some 42, none⟩ : UploadEnv).webpResult = none ∨
      (⟨some 42, none⟩ : UploadEnv).thumbResult = none) ∧
    ∃ e : ApiErr,
      (uploadMedia ⟨[(["./uploads", "u1", "images", "a.png"], 100)], [], 0, 0, []⟩
        "h.example" (some "u1")
        (some ⟨["./uploads", "u1", "images", "a.png"], "a.png", "photo.png",
          "image/png", 100⟩) ⟨some 42, none⟩).2.2 = .error e := by
  refine ⟨by decide, Or.inr rfl, ?_⟩
  obtain ⟨e, he, _⟩ := imageUpload_syncFailure_aborts
    ⟨[(["./uploads", "u1", "images", "a.png"], 100)], [], 0, 0, []⟩
    "h.example" "u1"
    ⟨["./uploads", "u1", "images", "a.png"], "a.png", "photo.png", "image/png", 100⟩
    ⟨some 42, none⟩ (by decide) (Or.inr rfl)
  exact ⟨e, he⟩

/-! ## C5 — field updates of one completion event -/

/-- C5 (amended): the two *asynchronous* transcode completion callbacks each
apply every field they change in a single record-update call: the
re-optimization transcode `end` callback persists
`optimizedFileUrl`/`isOptimized`/`fileSize`/`fileUrl` in one `save()`, and the
upload transcode `end` callback persists its three changed fields in one
`findByIdAndUpdate`; each appends exactly one entry to the persisted-state
log.  (The *synchronous* image re-optimization path, by contrast, uses two
`save()` calls — see the counterexample.) -/
theorem transcodeCompletion_single_update
    (s : St) (captured : MediaRecord) (srcPath outPath origPath : FsPath)
    (url : String) (k : Nat) (size : Nat)
    (h1 : fsLookup s.fs outPath = some size) :
    (optimizeTranscodeEnd s captured srcPath outPath url).log =
      s.log ++ [saveRecord s.store
        { captured with optimizedFileUrl := some url, isOptimized := true,
                        fileSize := size, fileUrl := url }] ∧
    (optimizeTranscodeEnd s captured srcPath outPath url).store =
      saveRecord s.store
        { captured with optimizedFileUrl := some url, isOptimized := true,
                        fileSize := size, fileUrl := url } ∧
    (optimizeTranscodeEnd s captured srcPath outPath url).log.length =
      s.log.length + 1 ∧
    (uploadTranscodeEnd s (DbId.oid k) origPath outPath url).log =
      s.log ++ [s.store.map (fun r =>
        if r.id == DbId.oid k then
          { r with optimizedFileUrl := some url, isOptimized := true,
                   fileSize := size }
        else r)] ∧
    (uploadTranscodeEnd s (DbId.oid k) origPath outPath url).store =
      s.store.map (fun r =>
        if r.id == DbId.oid k then
          { r with optimizedFileUrl := some url, isOptimized := true,
                   fileSize := size }
        else r) ∧
    (uploadTranscodeEnd s (DbId.oid k) origPath outPath url).log.length =
      s.log.length + 1 := by
  refine ⟨?_, ?_, ?_, ?_, ?_⟩ <;>
    simp only [optimizeTranscodeEnd, uploadTranscodeEnd, h1, stSave] <;>
    first
      | (split <;> simp)
      | simp

theorem transcodeCompletion_single_update_witness :
    fsLookup [(["./uploads", "u1", "videos", "optimized", "opt_c.mp4"], 300)]
      ["./uploads", "u1", "videos", "optimized", "opt_c.mp4"] = some 300 ∧
    (optimizeTranscodeEnd
      ⟨[(["./uploads", "u1", "videos", "optimized", "opt_c.mp4"], 300)],
        [], 1, 0, []⟩
      ⟨DbId.oid 0, "c.mp4", "clip.mp4", "video/mp4", 500,
        "https://h.example/uploads/u1/videos/c.mp4", none, none, "u1", false⟩
      ["./uploads", "u1", "videos", "c.mp4"]
      ["./uploads", "u1", "videos", "optimized", "opt_c.mp4"]
      "https://h.example/uploads/u1/videos/optimized/opt_c.mp4").log.length =
      0 + 1 := by
  refine ⟨rfl, ?_⟩
  have h := transcodeCompletion_single_update
    ⟨[(["./uploads", "u1", "videos", "optimized", "opt_c.mp4"], 300)], [], 1, 0, []⟩
    ⟨DbId.oid 0, "c.mp4", "clip.mp4", "video/mp4", 500,
      "https://h.example/uploads/u1/videos/c.mp4", none, none, "u1", false⟩
    ["./uploads", "u1", "videos", "c.mp4"]
    ["./uploads", "u1", "videos", "optimized", "opt_c.mp4"]
    ["./uploads", "u1", "videos", "c.mp4"]
    "https://h.example/uploads/u1/videos/optimized/opt_c.mp4" 7 300 (by decide)
  exact h.2.2.1

/-- C5 counterexample: re-optimizing a concrete un-optimized image record
performs *two* record-update calls for one optimization completion: the first
persisted state already has `isOptimized = true`, the new `optimizedFileUrl`
and the new `fileSize` but still the *old* `fileUrl` — an intermediate state
in which only some of the fields changed by the event are visible — and only
the second call updates `fileUrl`.  This refutes "all changed fields are
applied in a single update call". -/
theorem imageReoptimize_two_update_calls :
    ((optimizeMedia
      ⟨[(["./uploads", "u1", "images", "a.png"], 100)],
        [⟨DbId.oid 0, "a.png", "photo.png", "image/png", 100,
          "https://h.example/uploads/u1/images/a.png", none, none, "u1", false⟩],
        1, 0, []⟩
      "h.example" (some "u1") (DbId.oid 0) ⟨some 42⟩).1.log.map
      (List.map (fun r => (r.fileUrl, r.optimizedFileUrl, r.isOptimized, r.fileSize)))) =
    [[("https://h.example/uploads/u1/images/a.png",
       some "https://h.example/uploads/u1/images/optimized/opt_a.webp", true, 42)],
     [("https://h.example/uploads/u1/images/optimized/opt_a.webp",
       some "https://h.example/uploads/u1/images/optimized/opt_a.webp", true, 42)]] := by
  decide

/-! ## Helper lemmas about the record store -/

theorem findOne_of_find? (l : List MediaRecord) (mid : DbId) (u : String)
    (m : MediaRecord) (h : l.find? (fun r => r.id == mid) = some m)
    (hu : m.userId = u) : findOne l mid u = some m := by
  induction l with
  | nil => cases h
  | cons x xs ih =>
    by_cases hx : x.id = mid
    · rw [List.find?_cons_of_pos (p := fun r => r.id == mid) (a := x) _
        (by simp [hx])] at h
      injection h with h
      subst h
      unfold findOne
      rw [List.find?_cons_of_pos (p := fun r => r.id == mid && r.userId == u)
        (a := x) _ (by simp [hx, hu])]
    · rw [List.find?_cons_of_neg (p := fun r => r.id == mid) (a := x) _
        (by simp [hx])] at h
      unfold findOne at ih ⊢
      rw [List.find?_cons_of_neg (p := fun r => r.id == mid && r.userId == u)
        (a := x) _ (by simp [hx])]
      exact ih h

theorem saveRecord_self (l : List MediaRecord) (m : MediaRecord)
    (h : l.find? (fun r => r.id == m.id) = some m) : saveRecord l m = l := by
  induction l with
  | nil => rfl
  | cons x xs ih =>
    by_cases hx : x.id = m.id
    · rw [List.find?_cons_of_pos (p := fun r => r.id == m.id) (a := x) _
        (by simp [hx])] at h
      injection h with h
      simp [saveRecord, hx, h]
    · rw [List.find?_cons_of_neg (p := fun r => r.id == m.id) (a := x) _
        (by simp [hx])] at h
      simp [saveRecord, hx, ih h]

theorem setOptimized_eq_self (m : MediaRecord) (h : m.isOptimized = true) :
    { m with isOptimized := true } = m := by
  cases m
  simp_all

/-! ## C4 — re-optimizing an already-optimized record is a no-op -/

/-- C4: for every stored record that is already optimized —
`optimizedFileUrl` present (the early-return guard), or the edge case of an
image record whose canonical artifact is already a `.webp` (which
short-circuits without re-encoding) — `optimizeMedia` answers `200` with the
current record unchanged, launches no job, and leaves the filesystem and the
record store exactly as they were; calling it twice in succession produces no
filesystem change and identical record-store state both times.  (Every record
the pipeline itself persists with `isOptimized = true` satisfies the
disjunction: each writer sets `optimizedFileUrl` together with `isOptimized`,
except the webp short-circuit, which requires the `.webp` file name.) -/
theorem reoptimize_alreadyOptimized_noop
    (s : St) (host userId : String) (mediaId : DbId) (env : OptEnv)
    (m : MediaRecord)
    (hfind : s.store.find? (fun r => r.id == mediaId) = some m)
    (huser : m.userId = userId)
    (hopt : m.isOptimized = true)
    (hcase : m.optimizedFileUrl.isSome = true ∨
      (isImage m.fileType = true ∧ jsEndsWith m.fileName ".webp" = true)) :
    (optimizeMedia s host (some userId) mediaId env).2.1 = [] ∧
    (optimizeMedia s host (some userId) mediaId env).2.2 =
      .ok { status := 200, media := some (mediaView m) } ∧
    (optimizeMedia s host (some userId) mediaId env).1.fs = s.fs ∧
    (optimizeMedia s host (some userId) mediaId env).1.store = s.store ∧
    (optimizeMedia (optimizeMedia s host (some userId) mediaId env).1 host
      (some userId) mediaId env).2.1 = [] ∧
    (optimizeMedia (optimizeMedia s host (some userId) mediaId env).1 host
      (some userId) mediaId env).2.2 =
      .ok { status := 200, media := some (mediaView m) } ∧
    (optimizeMedia (optimizeMedia s host (some userId) mediaId env).1 host
      (some userId) mediaId env).1.fs = s.fs ∧
    (optimizeMedia (optimizeMedia s host (some userId) mediaId env).1 host
      (some userId) mediaId env).1.store = s.store := by
  have key : ∀ s' : St, s'.store = s.store →
      (optimizeMedia s' host (some userId) mediaId env).2.1 = [] ∧
      (optimizeMedia s' host (some userId) mediaId env).2.2 =
        .ok { status := 200, media := some (mediaView m) } ∧
      (optimizeMedia s' host (some userId) mediaId env).1.fs = s'.fs ∧
      (optimizeMedia s' host (some userId) mediaId env).1.store = s'.store := by
    intro s' hs'
    have hfind' : s'.store.find? (fun r => r.id == mediaId) = some m := by
      rw [hs']
      exact hfind
    have hfo : findOne s'.store mediaId userId = some m :=
      findOne_of_find? s'.store mediaId userId m hfind' huser
    by_cases hg : m.optimizedFileUrl.isSome = true
    · simp [optimizeMedia, hfo, hopt, hg, mediaView]
    · have hg' : m.optimizedFileUrl.isSome = false := by
        cases hx : m.optimizedFileUrl.isSome
        · rfl
        · exact absurd hx hg
      rcases hcase with hx | ⟨himg, hwebp⟩
      · exact absurd hx hg
      · have hid : m.id = mediaId := by
          have hp := List.find?_some hfind
          simpa using hp
        have hsave : saveRecord s'.store m = s'.store := by
          apply saveRecord_self
          rw [hid]
          exact hfind'
        have hm1 : { m with isOptimized := true } = m :=
          setOptimized_eq_self m hopt
        simp only [optimizeMedia, hfo, hopt, hg', himg, hwebp, Bool.and_false,
          Bool.not_true, Bool.false_eq_true, if_false, if_true, hm1, stSave,
          hsave]
        simp [mediaView]
  have k1 := key s rfl
  have k2 := key (optimizeMedia s host (some userId) mediaId env).1 k1.2.2.2
  refine ⟨k1.1, k1.2.1, k1.2.2.1, k1.2.2.2, k2.1, k2.2.1, ?_, ?_⟩
  · rw [k2.2.2.1, k1.2.2.1]
  · rw [k2.2.2.2, k1.2.2.2]

theorem reoptimize_alreadyOptimized_noop_witness :
    ([⟨DbId.oid 0, "a.webp", "photo.png", "image/png", 42,
        "https://h.example/uploads/u1/images/optimized/a.webp",
        some "https://h.example/uploads/u1/thumbnails/thumb_a.webp",
        some "https://h.example/uploads/u1/images/optimized/a.webp",
        "u1", true⟩] : List MediaRecord).find?
      (fun r => r.id == DbId.oid 0) = some
        ⟨DbId.oid 0, "a.webp", "photo.png", "image/png", 42,
          "https://h.example/uploads/u1/images/optimized/a.webp",
          some "https://h.example/uploads/u1/thumbnails/thumb_a.webp",
          some "https://h.example/uploads/u1/images/optimized/a.webp",
          "u1", true⟩ ∧
    (optimizeMedia
      ⟨[(["./uploads", "u1", "images", "optimized", "a.webp"], 42)],
        [⟨DbId.oid 0, "a.webp", "photo.png", "image/png", 42,
          "https://h.example/uploads/u1/images/optimized/a.webp",
          some "https://h.example/uploads/u1/thumbnails/thumb_a.webp",
          some "https://h.example/uploads/u1/images/optimized/a.webp",
          "u1", true⟩], 1, 0, []⟩
      "h.example" (some "u1") (DbId.oid 0) ⟨some 99⟩).1.fs =
      [(["./uploads", "u1", "images", "optimized", "a.webp"], 42)] ∧
    (optimizeMedia
      ⟨[(["./uploads", "u1", "images", "optimized", "a.webp"], 42)],
        [⟨DbId.oid 0, "a.webp", "photo.png", "image/png", 42,
          "https://h.example/uploads/u1/images/optimized/a.webp",
          some "https://h.example/uploads/u1/thumbnails/thumb_a.webp",
          some "https://h.example/uploads/u1/images/optimized/a.webp",
          "u1", true⟩], 1, 0, []⟩
      "h.example" (some "u1") (DbId.oid 0) ⟨some 99⟩).1.store =
      [⟨DbId.oid 0, "a.webp", "photo.png", "image/png", 42,
        "https://h.example/uploads/u1/images/optimized/a.webp",
        some "https://h.example/uploads/u1/thumbnails/thumb_a.webp",
        some "https://h.example/uploads/u1/images/optimized/a.webp",
        "u1", true⟩] := by
  refine ⟨by decide, ?_, ?_⟩
  · exact (reoptimize_alreadyOptimized_noop
      ⟨[(["./uploads", "u1", "images", "optimized", "a.webp"], 42)],
        [⟨DbId.oid 0, "a.webp", "photo.png", "image/png", 42,
          "https://h.example/uploads/u1/images/optimized/a.webp",
          some "https://h.example/uploads/u1/thumbnails/thumb_a.webp",
          some "https://h.example/uploads/u1/images/optimized/a.webp",
          "u1", true⟩], 1, 0, []⟩
      "h.example" "u1" (DbId.oid 0) ⟨some 99⟩
      ⟨DbId.oid 0, "a.webp", "photo.png", "image/png", 42,
        "https://h.example/uploads/u1/images/optimized/a.webp",
        some "https://h.example/uploads/u1/thumbnails/thumb_a.webp",
        some "https://h.example/uploads/u1/images/optimized/a.webp",
        "u1", true⟩
      (by decide) rfl rfl (Or.inl rfl)).2.2.1
  · exact (reoptimize_alreadyOptimized_noop
      ⟨[(["./uploads", "u1", "images", "optimized", "a.webp"], 42)],
        [⟨DbId.oid 0, "a.webp", "photo.png", "image/png", 42,
          "https://h.example/uploads/u1/images/optimized/a.webp",
          some "https://h.example/uploads/u1/thumbnails/thumb_a.webp",
          some "https://h.example/uploads/u1/images/optimized/a.webp",
          "u1", true⟩], 1, 0, []⟩
      "h.example" "u1" (DbId.oid 0) ⟨some 99⟩
      ⟨DbId.oid 0, "a.webp", "photo.png", "image/png", 42,
        "https://h.example/uploads/u1/images/optimized/a.webp",
        some "https://h.example/uploads/u1/thumbnails/thumb_a.webp",
        some "https://h.example/uploads/u1/images/optimized/a.webp",
        "u1", true⟩
      (by decide) rfl rfl (Or.inl rfl)).2.2.2.1

theorem fsLookup_erase_of_none {fs : Fs} {p : FsPath}
    (h : fsLookup fs p = none) (q : FsPath) :
    fsLookup (fsErase fs q) p = none := by
  by_cases hq : q = p
  · subst hq
    exact fsLookup_erase_self fs q
  · rw [fsLookup_erase_ne fs hq]
    exact h

theorem deleteMediaFsStage_store (s : St) (u : String) (m : MediaRecord) :
    (deleteMediaFsStage s u m).store = s.store := by
  simp only [deleteMediaFsStage]
  repeat' split
  all_goals rfl

theorem deleteMediaFsStage_canonical_none (s : St) (u : String) (m : MediaRecord)
    (hfu : m.fileUrl ≠ "") (hni : jsIncludes m.fileUrl "/optimized/" = false) :
    fsLookup (deleteMediaFsStage s u m).fs
      (getUserFilePath u (mediaTypeOf m.fileType) m.fileName) = none := by
  have hc : (!(m.fileUrl == "") && !(jsIncludes m.fileUrl "/optimized/")) = true := by
    simp [hfu, hni]
  simp only [deleteMediaFsStage, hc, if_true]
  repeat' split
  all_goals
    first
    | exact fsLookup_erase_self _ _
    | exact fsLookup_erase_of_none (fsLookup_erase_self _ _) _
    | exact fsLookup_erase_of_none (fsLookup_erase_of_none
        (fsLookup_erase_self _ _) _) _

theorem deleteMediaFsStage_thumbnail_none (s : St) (u : String) (m : MediaRecord)
    (t : String) (ht : m.thumbnailUrl = some t) :
    fsLookup (deleteMediaFsStage s u m).fs
      (getThumbnailPath u (urlBasename t)) = none := by
  simp only [deleteMediaFsStage, ht]
  repeat' split
  all_goals
    first
    | exact fsLookup_erase_self _ _
    | exact fsLookup_erase_of_none (fsLookup_erase_self _ _) _

theorem deleteMediaFsStage_optimized_none (s : St) (u : String) (m : MediaRecord)
    (ho : (m.optimizedFileUrl.isSome || jsIncludes m.fileUrl "/optimized/") = true) :
    fsLookup (deleteMediaFsStage s u m).fs
      (getOptimizedPath u (mediaTypeOf m.fileType)
        (urlBasename (m.optimizedFileUrl.getD m.fileUrl))) = none := by
  simp only [deleteMediaFsStage, ho, if_true]
  exact fsLookup_erase_self _ _

theorem findOne_filter_none (l : List MediaRecord) (mid : DbId) (u : String) :
    findOne (l.filter (fun r => !(r.id == mid))) mid u = none := by
  unfold findOne
  apply List.find?_eq_none.mpr
  intro x hx
  have hf := List.of_mem_filter hx
  simp at hf
  simp [hf]

/-! ## C7 — deletion removes every referenced artifact, fs-first -/

theorem deleteMedia_notFound (s' : St) (u : String) (mid : DbId)
    (h : findOne s'.store mid u = none) :
    deleteMedia s' (some u) mid = (s', .error ⟨"Media not found", 404⟩) := by
  simp only [deleteMedia, h]

/-- C7: for every record found by `(ownerId, recordId)`, `deleteMedia`
succeeds regardless of which files exist (every unlink is `existsSync`-guarded,
so a missing file is a non-error), removes the canonical artifact unless its
locator lies in the `optimized` subtree, the thumbnail when `thumbnailUrl`
is set, and the optimized artifact when `optimizedFileUrl` is set or the
canonical locator lies in the `optimized` subtree; all filesystem cleanup is
performed by a stage after which the record is still in the store, and only
then is the record deleted; a second delete of the same id fails with the
404 `NotFound` error and changes nothing. -/
theorem deleteMedia_removes_artifacts
    (s : St) (userId : String) (mediaId : DbId) (m : MediaRecord)
    (hfind : findOne s.store mediaId userId = some m) :
    (deleteMedia s (some userId) mediaId).2 =
      .ok { status := 200, media := none } ∧
    (deleteMedia s (some userId) mediaId).1 =
      { deleteMediaFsStage s userId m with
        store := (deleteMediaFsStage s userId m).store.filter
          (fun r => !(r.id == mediaId)) } ∧
    (deleteMediaFsStage s userId m).store = s.store ∧
    findOne (deleteMediaFsStage s userId m).store mediaId userId = some m ∧
    (m.fileUrl ≠ "" → jsIncludes m.fileUrl "/optimized/" = false →
      fsLookup (deleteMedia s (some userId) mediaId).1.fs
        (getUserFilePath userId (mediaTypeOf m.fileType) m.fileName) = none) ∧
    (∀ t, m.thumbnailUrl = some t →
      fsLookup (deleteMedia s (some userId) mediaId).1.fs
        (getThumbnailPath userId (urlBasename t)) = none) ∧
    ((m.optimizedFileUrl.isSome || jsIncludes m.fileUrl "/optimized/") = true →
      fsLookup (deleteMedia s (some userId) mediaId).1.fs
        (getOptimizedPath userId (mediaTypeOf m.fileType)
          (urlBasename (m.optimizedFileUrl.getD m.fileUrl))) = none) ∧
    findOne (deleteMedia s (some userId) mediaId).1.store mediaId userId = none ∧
    (deleteMedia (deleteMedia s (some userId) mediaId).1 (some userId) mediaId).2 =
      .error ⟨"Media not found", 404⟩ ∧
    (deleteMedia (deleteMedia s (some userId) mediaId).1 (some userId) mediaId).1 =
      (deleteMedia s (some userId) mediaId).1 := by
  have hgone : findOne (deleteMedia s (some userId) mediaId).1.store
      mediaId userId = none := by
    simp only [deleteMedia, hfind]
    exact findOne_filter_none _ mediaId userId
  refine ⟨?_, ?_, deleteMediaFsStage_store s userId m, ?_, ?_, ?_, ?_, hgone,
    ?_, ?_⟩
  · simp only [deleteMedia, hfind]
  · simp only [deleteMedia, hfind]
  · rw [deleteMediaFsStage_store s userId m]
    exact hfind
  · intro hfu hni
    simp only [deleteMedia, hfind]
    exact deleteMediaFsStage_canonical_none s userId m hfu hni
  · intro t ht
    simp only [deleteMedia, hfind]
    exact deleteMediaFsStage_thumbnail_none s userId m t ht
  · intro ho
    simp only [deleteMedia, hfind]
    exact deleteMediaFsStage_optimized_none s userId m ho
  · rw [deleteMedia_notFound _ _ _ hgone]
  · rw [deleteMedia_notFound _ _ _ hgone]

theorem deleteMedia_removes_artifacts_witness :
    findOne
      [⟨DbId.oid 0, "c.mp4", "clip.mp4", "video/mp4", 500,
        "https://h.example/uploads/u1/videos/c.mp4",
        some "https://h.example/uploads/u1/thumbnails/thumb_c.jpg",
        none, "u1", false⟩] (DbId.oid 0) "u1" = some
      ⟨DbId.oid 0, "c.mp4", "clip.mp4", "video/mp4", 500,
        "https://h.example/uploads/u1/videos/c.mp4",
        some "https://h.example/uploads/u1/thumbnails/thumb_c.jpg",
        none, "u1", false⟩ ∧
    fsLookup (deleteMedia
      ⟨[(["./uploads", "u1", "videos", "c.mp4"], 500),
        (["./uploads", "u1", "thumbnails", "thumb_c.jpg"], 9)],
        [⟨DbId.oid 0, "c.mp4", "clip.mp4", "video/mp4", 500,
          "https://h.example/uploads/u1/videos/c.mp4",
          some "https://h.example/uploads/u1/thumbnails/thumb_c.jpg",
          none, "u1", false⟩], 1, 0, []⟩
      (some "u1") (DbId.oid 0)).1.fs
      (getUserFilePath "u1" (mediaTypeOf "video/mp4") "c.mp4") = none ∧
    fsLookup (deleteMedia
      ⟨[(["./uploads", "u1", "videos", "c.mp4"], 500),
        (["./uploads", "u1", "thumbnails", "thumb_c.jpg"], 9)],
        [⟨DbId.oid 0, "c.mp4", "clip.mp4", "video/mp4", 500,
          "https://h.example/uploads/u1/videos/c.mp4",
          some "https://h.example/uploads/u1/thumbnails/thumb_c.jpg",
          none, "u1", false⟩], 1, 0, []⟩
      (some "u1") (DbId.oid 0)).1.fs
      (getThumbnailPath "u1"
        (urlBasename "https://h.example/uploads/u1/thumbnails/thumb_c.jpg")) =
      none ∧
    (deleteMedia (deleteMedia
      ⟨[(["./uploads", "u1", "videos", "c.mp4"], 500),
        (["./uploads", "u1", "thumbnails", "thumb_c.jpg"], 9)],
        [⟨DbId.oid 0, "c.mp4", "clip.mp4", "video/mp4", 500,
          "https://h.example/uploads/u1/videos/c.mp4",
          some "https://h.example/uploads/u1/thumbnails/thumb_c.jpg",
          none, "u1", false⟩], 1, 0, []⟩
      (some "u1") (DbId.oid 0)).1 (some "u1") (DbId.oid 0)).2 =
      .error ⟨"Media not found", 404⟩ := by
  have h := deleteMedia_removes_artifacts
    ⟨[(["./uploads", "u1", "videos", "c.mp4"], 500),
      (["./uploads", "u1", "thumbnails", "thumb_c.jpg"], 9)],
      [⟨DbId.oid 0, "c.mp4", "clip.mp4", "video/mp4", 500,
        "https://h.example/uploads/u1/videos/c.mp4",
        some "https://h.example/uploads/u1/thumbnails/thumb_c.jpg",
        none, "u1", false⟩], 1, 0, []⟩
    "u1" (DbId.oid 0)
    ⟨DbId.oid 0, "c.mp4", "clip.mp4", "video/mp4", 500,
      "https://h.example/uploads/u1/videos/c.mp4",
      some "https://h.example/uploads/u1/thumbnails/thumb_c.jpg",
      none, "u1", false⟩ (by decide)
  exact ⟨by decide, h.2.2.2.2.1 (by decide) (by decide),
    h.2.2.2.2.2.1 _ rfl, h.2.2.2.2.2.2.2.2.1⟩

/-! ## The reachable-record invariant backing the C4 side condition -/

/-- Every record the pipeline persists with `isOptimized = true` has its
`optimizedFileUrl` set, or is a `.webp`-named image (the short-circuit
branch of `optimizeMedia`). -/
def recordInv (r : MediaRecord) : Prop :=
  r.isOptimized = true →
    (r.optimizedFileUrl.isSome = true ∨
      (isImage r.fileType = true ∧ jsEndsWith r.fileName ".webp" = true))

theorem mem_saveRecord (l : List MediaRecord) (m r : MediaRecord)
    (h : r ∈ saveRecord l m) : r ∈ l ∨ r = m := by
  induction l with
  | nil => cases h
  | cons x xs ih =>
    by_cases hx : x.id = m.id
    · rw [show saveRecord (x :: xs) m = m :: xs by simp [saveRecord, hx]] at h
      rcases List.mem_cons.mp h with h | h
      · exact Or.inr h
      · exact Or.inl (List.mem_cons_of_mem x h)
    · rw [show saveRecord (x :: xs) m = x :: saveRecord xs m by
        simp [saveRecord, hx]] at h
      rcases List.mem_cons.mp h with h | h
      · exact Or.inl (h ▸ List.mem_cons_self x xs)
      · rcases ih h with h | h
        · exact Or.inl (List.mem_cons_of_mem x h)
        · exact Or.inr h

/-- `uploadMedia` only adds records satisfying `recordInv`. -/
theorem uploadMedia_recordInv (s : St) (host : String) (u? : Option String)
    (f? : Option UploadedFile) (env : UploadEnv) :
    ∀ r ∈ (uploadMedia s host u? f? env).1.store, r ∈ s.store ∨ recordInv r := by
  intro r hr
  match f?, u? with
  | none, _ => exact Or.inl hr
  | some file, none => exact Or.inl hr
  | some file, some userId =>
    by_cases hi : isImage file.mimetype = true
    · cases hw : env.webpResult with
      | none =>
        simp only [uploadMedia, hi, hw, if_true] at hr
        exact Or.inl hr
      | some n =>
        cases ht : env.thumbResult with
        | none =>
          simp only [uploadMedia, hi, hw, ht, if_true] at hr
          exact Or.inl hr
        | some t =>
          simp only [uploadMedia, mediaCreate, hi, hw, ht, if_true] at hr
          rw [List.mem_append] at hr
          rcases hr with hr | hr
          · exact Or.inl hr
          · rw [List.mem_singleton] at hr
            subst hr
            exact Or.inr fun _ => Or.inl rfl
    · have hi' : isImage file.mimetype = false := by
        cases hx : isImage file.mimetype
        · rfl
        · exact absurd hx hi
      by_cases hv : isVideo file.mimetype = true
      · simp only [uploadMedia, mediaCreate, hi', hv, Bool.false_eq_true,
          if_false, if_true] at hr
        rw [List.mem_append] at hr
        rcases hr with hr | hr
        · exact Or.inl hr
        · rw [List.mem_singleton] at hr
          subst hr
          exact Or.inr fun hfalse => Bool.noConfusion hfalse
      · have hv' : isVideo file.mimetype = false := by
          cases hx : isVideo file.mimetype
          · rfl
          · exact absurd hx hv
        simp only [uploadMedia, mediaCreate, hi', hv', Bool.false_eq_true,
          if_false] at hr
        rw [List.mem_append] at hr
        rcases hr with hr | hr
        · exact Or.inl hr
        · rw [List.mem_singleton] at hr
          subst hr
          exact Or.inr fun hfalse => Bool.noConfusion hfalse

/-- `optimizeMedia` only adds records satisfying `recordInv`. -/
theorem optimizeMedia_recordInv (s : St) (host : String) (u? : Option String)
    (mid : DbId) (env : OptEnv) :
    ∀ r ∈ (optimizeMedia s host u? mid env).1.store, r ∈ s.store ∨ recordInv r := by
  intro r hr
  match u? with
  | none => exact Or.inl hr
  | some userId =>
    cases hfo : findOne s.store mid userId with
    | none =>
      simp only [optimizeMedia, hfo] at hr
      exact Or.inl hr
    | some media =>
      by_cases hg : (media.isOptimized && media.optimizedFileUrl.isSome) = true
      · simp only [optimizeMedia, hfo, hg, if_true] at hr
        exact Or.inl hr
      · have hg' : (media.isOptimized && media.optimizedFileUrl.isSome) = false := by
          cases hx : (media.isOptimized && media.optimizedFileUrl.isSome)
          · rfl
          · exact absurd hx hg
        by_cases hi : isImage media.fileType = true
        · by_cases hwebp : jsEndsWith media.fileName ".webp" = true
          · simp only [optimizeMedia, hfo, hg', hi, hwebp, stSave, Bool.not_true,
              Bool.false_eq_true, if_false, if_true] at hr
            rcases mem_saveRecord _ _ _ hr with h | h
            · exact Or.inl h
            · subst h
              exact Or.inr fun _ => Or.inr ⟨hi, hwebp⟩
          · have hwebp' : jsEndsWith media.fileName ".webp" = false := by
              cases hx : jsEndsWith media.fileName ".webp"
              · rfl
              · exact absurd hx hwebp
            cases hwr : env.webpResult with
            | none =>
              simp only [optimizeMedia, hfo, hg', hi, hwebp', hwr, Bool.not_false,
                Bool.false_eq_true, if_false, if_true] at hr
              exact Or.inl hr
            | some size =>
              simp only [optimizeMedia, hfo, hg', hi, hwebp', hwr, stSave,
                Bool.not_false, Bool.false_eq_true, if_false, if_true] at hr
              split at hr
              · rcases mem_saveRecord _ _ _ hr with h | h
                · rcases mem_saveRecord _ _ _ h with h2 | h2
                  · exact Or.inl h2
                  · subst h2
                    exact Or.inr fun _ => Or.inl rfl
                · subst h
                  exact Or.inr fun _ => Or.inl rfl
              · rcases mem_saveRecord _ _ _ hr with h | h
                · exact Or.inl h
                · subst h
                  exact Or.inr fun _ => Or.inl rfl
        · have hi' : isImage media.fileType = false := by
            cases hx : isImage media.fileType
            · rfl
            · exact absurd hx hi
          by_cases hv : isVideo media.fileType = true
          · simp only [optimizeMedia, hfo, hg', hi', hv, Bool.false_eq_true,
              if_false, if_true] at hr
            exact Or.inl hr
          · have hv' : isVideo media.fileType = false := by
              cases hx : isVideo media.fileType
              · rfl
              · exact absurd hx hv
            simp only [optimizeMedia, hfo, hg', hi', hv', Bool.false_eq_true,
              if_false] at hr
            exact Or.inl hr

/-- The two transcode completion callbacks only add records satisfying
`recordInv`. -/
theorem transcodeEnd_recordInv (s : St) (tid : DbId) (captured : MediaRecord)
    (a b : FsPath) (url : String) :
    (∀ r ∈ (uploadTranscodeEnd s tid a b url).store, r ∈ s.store ∨ recordInv r) ∧
    (∀ r ∈ (optimizeTranscodeEnd s captured a b url).store,
      r ∈ s.store ∨ recordInv r) := by
  constructor
  · intro r hr
    cases hl : fsLookup s.fs b with
    | none =>
      simp only [uploadTranscodeEnd, hl] at hr
      exact Or.inl hr
    | some size =>
      match tid with
      | .uuid k =>
        simp only [uploadTranscodeEnd, hl] at hr
        exact Or.inl hr
      | .oid k =>
        simp only [uploadTranscodeEnd, hl] at hr
        rcases List.mem_map.mp hr with ⟨x, hx, hfx⟩
        by_cases hid : (x.id == DbId.oid k) = true
        · rw [if_pos hid] at hfx
          subst hfx
          exact Or.inr fun _ => Or.inl rfl
        · rw [if_neg hid] at hfx
          subst hfx
          exact Or.inl hx
  · intro r hr
    cases hl : fsLookup s.fs b with
    | none =>
      simp only [optimizeTranscodeEnd, hl] at hr
      exact Or.inl hr
    | some size =>
      simp only [optimizeTranscodeEnd, hl, stSave] at hr
      split at hr
      · rcases mem_saveRecord _ _ _ hr with h | h
        · exact Or.inl h
        · subst h
          exact Or.inr fun _ => Or.inl rfl
      · rcases mem_saveRecord _ _ _ hr with h | h
        · exact Or.inl h
        · subst h
          exact Or.inr fun _ => Or.inl rfl
